import Mathlib

/-!
Shallow embedding of the NewsParser pipeline: `rss_parser.py`, `web_parser.py`,
`yagpt_processing.py`, `publisher.py` and the per-site extractors under
`parsers/`.

Modelling choices:
* Python strings are `String` for database fields, and `List Char` (one
  element per code point, matching Python `len` and slicing) where character
  counts matter (message composition in the publisher).
* Nullable database columns are `Option String`.
* The SQLite table `news` is a `List NewsRow`; a single-statement `UPDATE`
  is a `List.map` touching exactly the rows whose `title` matches.
* Remote services (HTTP fetches, the two LLM calls, the chat `send_message`)
  are oracle parameters: a function from the request to the possible
  results, so theorems quantify over every remote behaviour.
* `random.choice` / `ORDER BY RANDOM()` are modelled as arbitrary
  parameters constrained by the same selection condition the SQL uses.
-/

abbrev Str := List Char

/-- The single-quote character (ASCII 39), used inside the publisher's HTML
link markup. -/
def SQc : Char := Char.ofNat 39

/-- Python truthiness of a nullable string: `None` and `""` are falsy,
every other string is truthy (`if not x: ...`). -/
def pyTruthy : Option String → Bool
  | none => false
  | some s => !s.isEmpty

/-- Python `str.lower` restricted to ASCII letters.  The source lowercases
the whole body (`processed_text.lower()`); only ASCII lowercasing can
produce the ASCII needle `vpn`, so this restriction is faithful for the
VPN filter. -/
def pyLowerChar (c : Char) : Char :=
  if 'A' ≤ c ∧ c ≤ 'Z' then Char.ofNat (c.toNat + 32) else c

/-- Python substring test `needle in hay` on code-point lists. -/
def containsSub (needle : Str) : Str → Bool
  | [] => needle.isEmpty
  | c :: rest => needle.isPrefixOf (c :: rest) || containsSub needle rest

/-- Values of the `published` column ever written by the pipeline. -/
inductive Status where
  | no
  | fetched
  | fetch_failed
  | processed
  | published_to_tg
deriving DecidableEq, Fintype

/-- One row of the `news` table (schema of `init_db` plus the columns added
by the idempotent migrations `init_db_for_full_text` and
`init_db_for_processed_text`). -/
structure NewsRow where
  title : String
  link : String
  thumbnail_url : Option String
  source : String
  published : Status
  full_text : Option String
  title_ru : Option String
  processed_full_text : Option String
deriving DecidableEq

abbrev Store := List NewsRow

/-- An item produced by the RSS stage (`parse_item_default` and friends). -/
structure NewsItem where
  title : String
  link : String
  thumbnail_url : Option String
  source : String
deriving DecidableEq

/-- The row inserted by `save_news_to_db` for a fresh item: only the four
RSS fields, `published` takes the schema default value `no`. -/
def freshRow (item : NewsItem) : NewsRow :=
  { title := item.title
    link := item.link
    thumbnail_url := item.thumbnail_url
    source := item.source
    published := Status.no
    full_text := none
    title_ru := none
    processed_full_text := none }

/-- `save_news_to_db` (rss_parser.py): `INSERT OR IGNORE` keyed on the
`title` primary key.  Returns the new store and whether a row was inserted
(`cursor.rowcount > 0`). -/
def save_news_to_db (st : Store) (item : NewsItem) : Store × Bool :=
  if st.any (fun r => decide (r.title = item.title)) then (st, false)
  else (st ++ [freshRow item], true)

/-- One ingestion pass (`parse_and_save_multiple_rss_feeds`): save every
parsed item in order.  Feed shuffling and inter-feed sleeps do not touch
the store, so the pass is the fold of the inserts. -/
def ingest_pass (st : Store) (items : List NewsItem) : Store :=
  items.foldl (fun s it => (save_news_to_db s it).1) st

/-- `update_news_full_text` (web_parser.py): one
`UPDATE news SET full_text = ?, published = 'fetched' WHERE title = ?`. -/
def update_news_full_text (st : Store) (title text : String) : Store :=
  st.map (fun r =>
    if r.title = title then
      { r with full_text := some text, published := Status.fetched }
    else r)

/-- `update_news_status_to_failed` (web_parser.py): one
`UPDATE news SET published = 'fetch_failed' WHERE title = ?`. -/
def update_news_status_to_failed (st : Store) (title : String) : Store :=
  st.map (fun r =>
    if r.title = title then { r with published := Status.fetch_failed }
    else r)

/-- `update_news_processed_text` (yagpt_processing.py): one
`UPDATE news SET title_ru = ?, processed_full_text = ?, published = 'processed'
WHERE title = ?` — both translated fields and the status change in a single
statement. -/
def update_news_processed_text (st : Store) (title title_ru processed : String) : Store :=
  st.map (fun r =>
    if r.title = title then
      { r with title_ru := some title_ru
               processed_full_text := some processed
               published := Status.processed }
    else r)

/-- `mark_news_as_published` (publisher.py): one
`UPDATE news SET published = 'published_to_tg' WHERE title = ?`. -/
def mark_news_as_published (st : Store) (title : String) : Store :=
  st.map (fun r =>
    if r.title = title then { r with published := Status.published_to_tg }
    else r)

/-- Domain substrings of `PARSERS_FOR_SITES` (web_parser.py), in dict
insertion order. -/
def PARSERS_FOR_SITES : List String :=
  ["wired.com", "cnet.com", "computerweekly.com", "engadget.com"]

/-- The adapter lookup in `fetch_full_texts`: the first registry key that
occurs as a substring of the URL. -/
def find_site_adapter (link : String) : Option String :=
  PARSERS_FOR_SITES.find? (fun d => containsSub d.data link.data)

/-- Outcome of calling a site extractor on one URL: it can raise (the
caller catches `Exception`), or return a value that Python then tests with
`if not full_text:` — so `none` and the empty string go the same way. -/
inductive ExtractResult where
  | raised
  | returned (text : Option String)

/-- The body of the per-row loop of `fetch_full_texts` (web_parser.py) for
one row in the snapshot, given the extractor outcome oracle `ext`:
no matching adapter → skip; adapter raised → skip (row untouched);
empty or null result → `update_news_status_to_failed`;
non-empty result → `update_news_full_text`. -/
def fetchStep (ext : String → ExtractResult) (st : Store) (p : NewsRow) : Store :=
  if (find_site_adapter p.link).isSome then
    match ext p.link with
    | ExtractResult.raised => st
    | ExtractResult.returned none => update_news_status_to_failed st p.title
    | ExtractResult.returned (some txt) =>
        if txt = "" then update_news_status_to_failed st p.title
        else update_news_full_text st p.title txt
  else st

/-- One pass of `fetch_full_texts`: snapshot the rows with
`published = 'no'` (`get_unfetched_news`), then handle each snapshot row in
order. -/
def fetch_full_texts (ext : String → ExtractResult) (st : Store) : Store :=
  (st.filter (fun r => decide (r.published = Status.no))).foldl (fetchStep ext) st

/-- `process_text_with_yacloud_sdk` (yagpt_processing.py): empty or null
input returns `""` immediately; otherwise the input is truncated to 3,000
characters and sent to the LLM.  The oracle `llm` returns the stripped
alternative text, or `none` for "no alternatives" / any exception. -/
def process_text_with_yacloud_sdk (llm : String → Option String)
    (text : Option String) : Option String :=
  if pyTruthy text = false then some ""
  else llm ((text.getD "").take 3000)

/-- The body of the per-row loop of `process_texts_with_yacloud_sdk` for
one snapshot row.  `ttrans` is the headline-translation oracle: `some t`
is the stripped translation, `none` means the call raised and the original
headline is substituted.  An empty headline skips the row; a failed body
rewrite (`None`) skips the row; otherwise both translated fields and the
`processed` status are written by the single `update_news_processed_text`
statement. -/
def process_one (llm : String → Option String) (ttrans : String → Option String)
    (st : Store) (p : NewsRow) : Store :=
  let translated_title := (ttrans p.title).getD p.title
  if translated_title = "" then st
  else
    match process_text_with_yacloud_sdk llm p.full_text with
    | none => st
    | some final => update_news_processed_text st p.title translated_title final

/-- One pass of `process_texts_with_yacloud_sdk`: snapshot the rows with
`published = 'fetched'` (`get_fetched_news`), then handle each in order. -/
def process_texts_with_yacloud_sdk (llm ttrans : String → Option String)
    (st : Store) : Store :=
  (st.filter (fun r => decide (r.published = Status.fetched))).foldl
    (process_one llm ttrans) st

/-- Microseconds per hour; `datetime.now()` has microsecond resolution, so
a time of day is a number of microseconds since local midnight. -/
def USEC_PER_HOUR : Nat := 3600 * 1000000

/-- `get_sleep_duration` (publisher.py), with durations in microseconds:
inside `[02:00, 07:00)` it returns the time remaining until 07:00 (the
`wakeup += timedelta(days=1)` branch is kept although `now < 07:00` makes
it dead); outside the window it returns 0. -/
def get_sleep_duration (t : Nat) : Nat :=
  if 2 * USEC_PER_HOUR ≤ t ∧ t < 7 * USEC_PER_HOUR then
    let wakeup := 7 * USEC_PER_HOUR
    let wakeup := if wakeup ≤ t then wakeup + 24 * USEC_PER_HOUR else wakeup
    wakeup - t
  else 0

/-- Literal segment `<b>` of the publisher's message f-strings. -/
def SEG_A : Str := ("<b>").data

/-- Literal segment between headline and body: `</b>` plus a blank line. -/
def SEG_B2 : Str := ("</b>\n\n").data

/-- The three ASCII dots appended to a truncated body. -/
def DOTS : Str := ("...").data

/-- Literal: the link emoji and the opening of the anchor tag up to and
including the single quote before the URL. -/
def SEG_D : Str := ("🔗 <a href=").data ++ [SQc]

/-- Blank line followed by `SEG_D`, as it appears after the body. -/
def SEG_B3 : Str := ("\n\n").data ++ SEG_D

/-- Closing of the anchor in the full composed message (long Russian link
text). -/
def SEG_C_FULL : Str := [SQc] ++ (">Читать оригинал новости в источнике 👇</a>").data

/-- Closing of the anchor in the truncated / minimal messages (short
Russian link text). -/
def SEG_C : Str := [SQc] ++ (">Читать оригинал</a>").data

/-- Literal `: ` between source and headline. -/
def SEG_COLON : Str := (": ").data

/-- The initially composed message of `publish_news_to_telegram`:
`{emozi}<b>{source}: {title_ru}</b>\n\n{processed_text}\n\n🔗 <a href=…>…</a>`. -/
def compose_message (emozi source title_ru body link : Str) : Str :=
  emozi ++ SEG_A ++ source ++ SEG_COLON ++ title_ru ++ SEG_B2 ++ body ++
    SEG_B3 ++ link ++ SEG_C_FULL

/-- The template whose length is subtracted from 4,000 to compute
`available_text_length`:
`<b>{title_ru}</b>\n\n...\n\n🔗 <a href=…{link}…>Читать оригинал</a>`. -/
def TRUNC_TEMPLATE (title_ru link : Str) : Str :=
  SEG_A ++ title_ru ++ SEG_B2 ++ DOTS ++ SEG_B3 ++ link ++ SEG_C

/-- `MAX_TELEGRAM_MESSAGE_LENGTH` in publisher.py. -/
def MAX_TELEGRAM_MESSAGE_LENGTH : Nat := 4000

/-- The length-enforcement block of `publish_news_to_telegram`: messages of
at most 4,000 characters pass unmodified; longer ones are rebuilt from the
headline-plus-link template with the body cut to the available space and
`...` appended, or — when fewer than 101 characters remain — reduced to
headline and link only.  `available_text_length` is an `Int` because the
Python subtraction can be negative. -/
def truncate_message (title_ru body link msg : Str) : Str :=
  if MAX_TELEGRAM_MESSAGE_LENGTH < msg.length then
    if 100 < (MAX_TELEGRAM_MESSAGE_LENGTH : Int) - (TRUNC_TEMPLATE title_ru link).length then
      SEG_A ++ title_ru ++ SEG_B2 ++
        (body.take ((MAX_TELEGRAM_MESSAGE_LENGTH : Int) -
          (TRUNC_TEMPLATE title_ru link).length - 3).toNat ++ DOTS) ++
        SEG_B3 ++ link ++ SEG_C
    else
      SEG_A ++ title_ru ++ SEG_B2 ++ SEG_D ++ link ++ SEG_C
  else msg

/-- The LLM refusal sentinel checked by the publisher. -/
def SENTINEL : String := "В интернете есть много сайтов с информацией на эту тему."

/-- The ASCII needle of the VPN filter. -/
def VPN_NEEDLE : String := "vpn"

/-- What `publish_news_to_telegram` decides for one row: consume it without
sending (a pre-send filter fired), or send a message. -/
inductive PublishOutcome where
  | skipped
  | sent (msg : Str)
deriving DecidableEq

/-- The pre-send filters and message building of `publish_news_to_telegram`
(publisher.py), for the row columns the `SELECT` returned.  `emozi` stands
for the `random.choice` result. -/
def publish_decision (emozi : Str) (item : NewsRow) : PublishOutcome :=
  if !(pyTruthy item.title_ru) || !(pyTruthy item.processed_full_text) then
    PublishOutcome.skipped
  else
    let title_ru := item.title_ru.getD ""
    let body := item.processed_full_text.getD ""
    if containsSub VPN_NEEDLE.data (body.data.map pyLowerChar) then
      PublishOutcome.skipped
    else if containsSub SENTINEL.data body.data then
      PublishOutcome.skipped
    else
      PublishOutcome.sent (truncate_message title_ru.data body.data item.link.data
        (compose_message emozi item.source.data title_ru.data body.data item.link.data))

/-- Result of the chat-API send call. -/
inductive SendResult where
  | ok
  | apiError

/-- One publication cycle (steps inside `run_publisher` after the quiet-hour
check): `pick` is the row `get_next_processed_news` returned (`none` when
the store has no `processed` row).  A fired filter marks the row published
without sending; a successful send marks it afterwards; a chat-API error
leaves the store untouched.  The second component is the message that went
out, if any. -/
def publisher_cycle (pick : Option NewsRow) (emozi : Str) (send : SendResult)
    (st : Store) : Store × Option Str :=
  match pick with
  | none => (st, none)
  | some item =>
    match publish_decision emozi item with
    | PublishOutcome.skipped => (mark_news_as_published st item.title, none)
    | PublishOutcome.sent msg =>
      match send with
      | SendResult.ok => (mark_news_as_published st item.title, some msg)
      | SendResult.apiError => (st, none)

/-- One iteration of the `while True` loop of `run_publisher`: the loop body
first calls `get_sleep_duration`; a positive value sleeps and `continue`s,
so nothing is selected and nothing is sent. -/
def run_publisher_iteration (t : Nat) (pick : Option NewsRow) (emozi : Str)
    (send : SendResult) (st : Store) : Store × Option Str :=
  if 0 < get_sleep_duration t then (st, none)
  else publisher_cycle pick emozi send st

/-- The environment values the modules read with `os.getenv` at import
time. -/
structure Env where
  bot_token : Option String
  channel_id : Option String
  yc_folder_id : Option String
  yc_api_key : Option String

/-- The module-import-time configuration checks, in the import order of
`main.py` (yagpt_processing before publisher): `yagpt_processing.py` raises
`ValueError` when `YC_FOLDER_ID` is falsy, `publisher.py` raises when
`BOT_TOKEN` or `CHANNEL_ID` is falsy.  No module checks `YC_API_KEY`. -/
def startup_check (e : Env) : Except String Unit :=
  if !(pyTruthy e.yc_folder_id) then Except.error "YC_FOLDER_ID"
  else if !(pyTruthy e.bot_token) || !(pyTruthy e.channel_id) then
    Except.error "BOT_TOKEN or CHANNEL_ID"
  else Except.ok ()

/-- Result of the `requests.get` an extractor performs. -/
inductive HttpResult where
  | ok (html : String)
  | netError

/-- A Python exception escaping an extractor. -/
inductive PyError where
  | typeError
deriving DecidableEq

/-- The article dict built by the per-site parse functions; only the
`content` entry is ever read by the `fetch_text_*` wrappers, the remaining
keys (title, author, dates, tags, images, …) are never consumed. -/
structure Article where
  content : String
deriving DecidableEq

/-- `parse_wired_article` (parsers/wired.py): the whole body is inside
`try/except Exception`, so a network error from `requests.get` is caught
and the function returns `None`; on success it builds the article dict,
with the HTML-scraping work abstracted into the oracle
`extract_content`. -/
def parse_wired_article (extract_content : String → String) :
    HttpResult → Option Article
  | HttpResult.netError => none
  | HttpResult.ok html => some { content := extract_content html }

/-- `parse_cnet_article` (parsers/cnet.py): same `try/except` shape. -/
def parse_cnet_article (extract_content : String → String) :
    HttpResult → Option Article
  | HttpResult.netError => none
  | HttpResult.ok html => some { content := extract_content html }

/-- `parse_article_from_url` (parsers/compweekly.py): same shape. -/
def parse_article_from_url (extract_content : String → String) :
    HttpResult → Option Article
  | HttpResult.netError => none
  | HttpResult.ok html => some { content := extract_content html }

/-- `parse_engadget_article` (parsers/engadget.py): same shape. -/
def parse_engadget_article (extract_content : String → String) :
    HttpResult → Option Article
  | HttpResult.netError => none
  | HttpResult.ok html => some { content := extract_content html }

/-- Python subscription `article['content']` where `article` may be `None`:
subscripting `None` raises `TypeError`. -/
def pySubscriptContent : Option Article → Except PyError String
  | none => Except.error PyError.typeError
  | some a => Except.ok a.content

/-- `fetch_text_wired` (parsers/wired.py): no `try` of its own, so the
`TypeError` from subscripting a `None` article propagates to the caller. -/
def fetch_text_wired (extract_content : String → String) (http : HttpResult) :
    Except PyError String :=
  pySubscriptContent (parse_wired_article extract_content http)

/-- `fetch_text_cnet` (parsers/cnet.py). -/
def fetch_text_cnet (extract_content : String → String) (http : HttpResult) :
    Except PyError String :=
  pySubscriptContent (parse_cnet_article extract_content http)

/-- `fetch_text_computerweekly` (parsers/compweekly.py). -/
def fetch_text_computerweekly (extract_content : String → String)
    (http : HttpResult) : Except PyError String :=
  pySubscriptContent (parse_article_from_url extract_content http)

/-- `fetch_text_engadget` (parsers/engadget.py). -/
def fetch_text_engadget (extract_content : String → String) (http : HttpResult) :
    Except PyError String :=
  pySubscriptContent (parse_engadget_article extract_content http)

/-- One atomic pipeline step on the shared store: a full ingestion pass, a
full fetch pass, a full processing pass, or one publisher loop iteration.
The publisher constructor carries the selection condition of
`get_next_processed_news`: a picked row is a store row with
`published = 'processed'`. -/
inductive PipelineStep : Store → Store → Prop where
  | ingest (items : List NewsItem) (s : Store) :
      PipelineStep s (ingest_pass s items)
  | fetch (ext : String → ExtractResult) (s : Store) :
      PipelineStep s (fetch_full_texts ext s)
  | process (llm ttrans : String → Option String) (s : Store) :
      PipelineStep s (process_texts_with_yacloud_sdk llm ttrans s)
  | publish (t : Nat) (pick : Option NewsRow) (emozi : Str) (send : SendResult)
      (s : Store)
      (hpick : ∀ r, pick = some r → r ∈ s ∧ r.published = Status.processed) :
      PipelineStep s (run_publisher_iteration t pick emozi send s).1

/-- Store states reachable by the pipeline from the freshly created
(empty) `news` table. -/
inductive Reachable : Store → Prop where
  | init : Reachable []
  | step {s s' : Store} : Reachable s → PipelineStep s s' → Reachable s'

/-- The titles of the store, in row order. -/
def titlesOf (s : Store) : List String := s.map (fun r => r.title)

/-- The `title` primary-key invariant: no two rows share a headline. -/
def TitlesNodup (s : Store) : Prop := (titlesOf s).Nodup

/-- Invariant: every `fetched` row has a non-null, non-empty body. -/
def FetchInv (s : Store) : Prop :=
  ∀ r ∈ s, r.published = Status.fetched → ∃ t, r.full_text = some t ∧ t ≠ ""

/-- Invariant: every `processed` row has both translated fields non-null. -/
def ProcInv (s : Store) : Prop :=
  ∀ r ∈ s, r.published = Status.processed →
    r.title_ru ≠ none ∧ r.processed_full_text ≠ none

/-- The conjunction of the store invariants maintained by every step. -/
def GInv (s : Store) : Prop := TitlesNodup s ∧ FetchInv s ∧ ProcInv s

/-- The legal single-step moves of the lifecycle state machine:
stay put, `no → fetched`, `no → fetch_failed`, `fetched → processed`,
or `processed → published_to_tg`. -/
abbrev stepOk (a b : Status) : Prop :=
  a = b ∨
  (a = Status.no ∧ b = Status.fetched) ∨
  (a = Status.no ∧ b = Status.fetch_failed) ∨
  (a = Status.fetched ∧ b = Status.processed) ∨
  (a = Status.processed ∧ b = Status.published_to_tg)

/-- Row-wise advancement: every row of `s` is still at the same position in
`s'`, with the same headline, and its status moved along `R`. -/
def Advances (R : Status → Status → Prop) (s s' : Store) : Prop :=
  ∀ (i : Nat) (r : NewsRow), s[i]? = some r →
    ∃ r' : NewsRow, s'[i]? = some r' ∧ r'.title = r.title ∧ R r.published r'.published

/-- Moves a single fetch pass may make on one row. -/
abbrev AdvFetch (a b : Status) : Prop :=
  a = b ∨ (a = Status.no ∧ (b = Status.fetched ∨ b = Status.fetch_failed))

/-- Moves a single processing pass may make on one row. -/
abbrev AdvProc (a b : Status) : Prop :=
  a = b ∨ (a = Status.fetched ∧ b = Status.processed)

/-- Moves a single publisher iteration may make on one row. -/
abbrev AdvPub (a b : Status) : Prop :=
  a = b ∨ (a = Status.processed ∧ b = Status.published_to_tg)

theorem advances_mono {R R' : Status → Status → Prop} (h : ∀ a b, R a b → R' a b)
    {s s' : Store} (ha : Advances R s s') : Advances R' s s' := by
  intro i r hr
  obtain ⟨r', h1, h2, h3⟩ := ha i r hr
  exact ⟨r', h1, h2, h _ _ h3⟩

theorem advances_refl {R : Status → Status → Prop} (h : ∀ a, R a a) (s : Store) :
    Advances R s s := by
  intro i r hr
  exact ⟨r, hr, rfl, h _⟩

theorem advances_trans {R : Status → Status → Prop}
    (hR : ∀ a b c, R a b → R b c → R a c) {s t u : Store}
    (h1 : Advances R s t) (h2 : Advances R t u) : Advances R s u := by
  intro i r hr
  obtain ⟨r', hr', ht, hR1⟩ := h1 i r hr
  obtain ⟨r'', hr'', ht2, hR2⟩ := h2 i r' hr'
  exact ⟨r'', hr'', by rw [ht2, ht], hR _ _ _ hR1 hR2⟩

theorem advances_map {R : Status → Status → Prop} (upd : NewsRow → NewsRow)
    (s : Store) (ht : ∀ r ∈ s, (upd r).title = r.title)
    (hs : ∀ r ∈ s, R r.published (upd r).published) :
    Advances R s (s.map upd) := by
  intro i r hr
  have hmem : r ∈ s := List.getElem?_mem hr
  refine ⟨upd r, ?_, ht r hmem, hs r hmem⟩
  rw [List.getElem?_map, hr]
  rfl

theorem advances_append {R : Status → Status → Prop} (h : ∀ a, R a a)
    (s l : Store) : Advances R s (s ++ l) := by
  intro i r hr
  have hlt : i < s.length := (List.getElem?_eq_some.mp hr).1
  exact ⟨r, by rw [List.getElem?_append_left hlt]; exact hr, rfl, h _⟩

theorem titlesOf_map (upd : NewsRow → NewsRow) (s : Store)
    (ht : ∀ r ∈ s, (upd r).title = r.title) :
    titlesOf (s.map upd) = titlesOf s := by
  unfold titlesOf
  rw [List.map_map]
  exact List.map_congr_left ht

/-- Two rows of a store with unique headlines that share a headline are the
same row. -/
theorem eq_of_mem_of_title_eq {s : Store} (hnd : TitlesNodup s)
    {p r : NewsRow} (hp : p ∈ s) (hr : r ∈ s) (h : r.title = p.title) : r = p := by
  induction s with
  | nil => cases hp
  | cons x xs ih =>
    have hnd' : (titlesOf xs).Nodup ∧ x.title ∉ titlesOf xs := by
      have := List.nodup_cons.mp hnd
      exact ⟨this.2, this.1⟩
    rcases List.mem_cons.mp hp with hpx | hpxs
    · rcases List.mem_cons.mp hr with hrx | hrxs
      · rw [hrx, hpx]
      · exfalso
        apply hnd'.2
        have hx : x.title = r.title := by rw [← hpx, ← h]
        rw [hx]
        exact List.mem_map.mpr ⟨r, hrxs, rfl⟩
    · rcases List.mem_cons.mp hr with hrx | hrxs
      · exfalso
        apply hnd'.2
        have hx : x.title = p.title := by rw [← hrx, h]
        rw [hx]
        exact List.mem_map.mpr ⟨p, hpxs, rfl⟩
      · exact ih hnd'.1 hpxs hrxs

theorem titlesNodup_map {upd : NewsRow → NewsRow} {s : Store}
    (ht : ∀ r ∈ s, (upd r).title = r.title) (h : TitlesNodup s) :
    TitlesNodup (s.map upd) := by
  unfold TitlesNodup
  rw [titlesOf_map upd s ht]
  exact h

theorem update_full_title (title text : String) :
    ∀ r : NewsRow,
      ((fun r : NewsRow => if r.title = title then
        { r with full_text := some text, published := Status.fetched } else r) r).title
        = r.title := by
  intro r
  by_cases hteq : r.title = title <;> simp [hteq]

theorem update_failed_title (title : String) :
    ∀ r : NewsRow,
      ((fun r : NewsRow => if r.title = title then
        { r with published := Status.fetch_failed } else r) r).title = r.title := by
  intro r
  by_cases hteq : r.title = title <;> simp [hteq]

theorem update_processed_title (title title_ru processed : String) :
    ∀ r : NewsRow,
      ((fun r : NewsRow => if r.title = title then
        { r with title_ru := some title_ru
                 processed_full_text := some processed
                 published := Status.processed } else r) r).title = r.title := by
  intro r
  by_cases hteq : r.title = title <;> simp [hteq]

theorem update_published_title (title : String) :
    ∀ r : NewsRow,
      ((fun r : NewsRow => if r.title = title then
        { r with published := Status.published_to_tg } else r) r).title = r.title := by
  intro r
  by_cases hteq : r.title = title <;> simp [hteq]

theorem fetchInv_update_full {s : Store} {title text : String} (h : FetchInv s)
    (htext : text ≠ "") : FetchInv (update_news_full_text s title text) := by
  intro r' hr'
  unfold update_news_full_text at hr'
  obtain ⟨r, hrs, rfl⟩ := List.mem_map.mp hr'
  by_cases hteq : r.title = title
  · intro _
    exact ⟨text, by simp [hteq], htext⟩
  · simp only [hteq, if_false]
    exact h r hrs

theorem fetchInv_update_failed {s : Store} {title : String} (h : FetchInv s) :
    FetchInv (update_news_status_to_failed s title) := by
  intro r' hr'
  unfold update_news_status_to_failed at hr'
  obtain ⟨r, hrs, rfl⟩ := List.mem_map.mp hr'
  by_cases hteq : r.title = title
  · intro hst
    simp [hteq] at hst
  · simp only [hteq, if_false]
    exact h r hrs

theorem fetchInv_update_processed {s : Store} {title title_ru processed : String}
    (h : FetchInv s) : FetchInv (update_news_processed_text s title title_ru processed) := by
  intro r' hr'
  unfold update_news_processed_text at hr'
  obtain ⟨r, hrs, rfl⟩ := List.mem_map.mp hr'
  by_cases hteq : r.title = title
  · intro hst
    simp [hteq] at hst
  · simp only [hteq, if_false]
    exact h r hrs

theorem fetchInv_mark {s : Store} {title : String} (h : FetchInv s) :
    FetchInv (mark_news_as_published s title) := by
  intro r' hr'
  unfold mark_news_as_published at hr'
  obtain ⟨r, hrs, rfl⟩ := List.mem_map.mp hr'
  by_cases hteq : r.title = title
  · intro hst
    simp [hteq] at hst
  · simp only [hteq, if_false]
    exact h r hrs

theorem procInv_update_full {s : Store} {title text : String} (h : ProcInv s) :
    ProcInv (update_news_full_text s title text) := by
  intro r' hr'
  unfold update_news_full_text at hr'
  obtain ⟨r, hrs, rfl⟩ := List.mem_map.mp hr'
  by_cases hteq : r.title = title
  · intro hst
    simp [hteq] at hst
  · simp only [hteq, if_false]
    exact h r hrs

theorem procInv_update_failed {s : Store} {title : String} (h : ProcInv s) :
    ProcInv (update_news_status_to_failed s title) := by
  intro r' hr'
  unfold update_news_status_to_failed at hr'
  obtain ⟨r, hrs, rfl⟩ := List.mem_map.mp hr'
  by_cases hteq : r.title = title
  · intro hst
    simp [hteq] at hst
  · simp only [hteq, if_false]
    exact h r hrs

theorem procInv_update_processed {s : Store} {title title_ru processed : String}
    (h : ProcInv s) : ProcInv (update_news_processed_text s title title_ru processed) := by
  intro r' hr'
  unfold update_news_processed_text at hr'
  obtain ⟨r, hrs, rfl⟩ := List.mem_map.mp hr'
  by_cases hteq : r.title = title
  · intro _
    constructor <;> simp [hteq]
  · simp only [hteq, if_false]
    exact h r hrs

theorem procInv_mark {s : Store} {title : String} (h : ProcInv s) :
    ProcInv (mark_news_as_published s title) := by
  intro r' hr'
  unfold mark_news_as_published at hr'
  obtain ⟨r, hrs, rfl⟩ := List.mem_map.mp hr'
  by_cases hteq : r.title = title
  · intro hst
    simp [hteq] at hst
  · simp only [hteq, if_false]
    exact h r hrs

theorem ginv_update_full {s : Store} {title text : String} (h : GInv s)
    (htext : text ≠ "") : GInv (update_news_full_text s title text) := by
  obtain ⟨h1, h2, h3⟩ := h
  refine ⟨?_, fetchInv_update_full h2 htext, procInv_update_full h3⟩
  exact titlesNodup_map (fun r _ => update_full_title title text r) h1

theorem ginv_update_failed {s : Store} {title : String} (h : GInv s) :
    GInv (update_news_status_to_failed s title) := by
  obtain ⟨h1, h2, h3⟩ := h
  refine ⟨?_, fetchInv_update_failed h2, procInv_update_failed h3⟩
  exact titlesNodup_map (fun r _ => update_failed_title title r) h1

theorem ginv_update_processed {s : Store} {title title_ru processed : String}
    (h : GInv s) : GInv (update_news_processed_text s title title_ru processed) := by
  obtain ⟨h1, h2, h3⟩ := h
  refine ⟨?_, fetchInv_update_processed h2, procInv_update_processed h3⟩
  exact titlesNodup_map (fun r _ => update_processed_title title title_ru processed r) h1

theorem ginv_mark {s : Store} {title : String} (h : GInv s) :
    GInv (mark_news_as_published s title) := by
  obtain ⟨h1, h2, h3⟩ := h
  refine ⟨?_, fetchInv_mark h2, procInv_mark h3⟩
  exact titlesNodup_map (fun r _ => update_published_title title r) h1

theorem ginv_save {s : Store} {item : NewsItem} (h : GInv s) :
    GInv (save_news_to_db s item).1 := by
  obtain ⟨h1, h2, h3⟩ := h
  unfold save_news_to_db
  by_cases hc : s.any (fun r => decide (r.title = item.title)) = true
  · rw [if_pos hc]
    exact ⟨h1, h2, h3⟩
  · rw [if_neg hc]
    refine ⟨?_, ?_, ?_⟩
    · unfold TitlesNodup titlesOf
      rw [List.map_append]
      refine List.Nodup.append h1 (List.nodup_singleton _) ?_
      simp only [List.map_cons, List.map_nil, List.disjoint_singleton, freshRow]
      intro hmem
      obtain ⟨r, hrs, hrt⟩ := List.mem_map.mp hmem
      apply hc
      exact List.any_eq_true.mpr ⟨r, hrs, by simp [hrt]⟩
    · intro r hr hst
      rcases List.mem_append.mp hr with hr1 | hr1
      · exact h2 r hr1 hst
      · simp only [List.mem_singleton] at hr1
        rw [hr1] at hst
        simp [freshRow] at hst
    · intro r hr hst
      rcases List.mem_append.mp hr with hr1 | hr1
      · exact h3 r hr1 hst
      · simp only [List.mem_singleton] at hr1
        rw [hr1] at hst
        simp [freshRow] at hst

theorem ginv_fetchStep {ext : String → ExtractResult} {st : Store} {p : NewsRow}
    (h : GInv st) : GInv (fetchStep ext st p) := by
  unfold fetchStep
  by_cases hp : (find_site_adapter p.link).isSome
  · simp only [hp, if_true]
    cases hext : ext p.link with
    | raised => exact h
    | returned t =>
      cases t with
      | none => exact ginv_update_failed h
      | some txt =>
        by_cases htxt : txt = ""
        · simp only [htxt, if_true]
          exact ginv_update_failed h
        · simp only [htxt, if_false]
          exact ginv_update_full h htxt
  · simp only [hp, if_false]
    exact h

theorem ginv_process_one {llm ttrans : String → Option String} {st : Store}
    {p : NewsRow} (h : GInv st) : GInv (process_one llm ttrans st p) := by
  unfold process_one
  by_cases ht : (ttrans p.title).getD p.title = ""
  · simp only [ht, if_true]
    exact h
  · simp only [ht, if_false]
    cases process_text_with_yacloud_sdk llm p.full_text with
    | none => exact h
    | some final => exact ginv_update_processed h

theorem ginv_foldl {α : Type} {f : Store → α → Store}
    (hf : ∀ st a, GInv st → GInv (f st a)) :
    ∀ (l : List α) (st : Store), GInv st → GInv (l.foldl f st) := by
  intro l
  induction l with
  | nil => intro st h; exact h
  | cons a rest ih =>
    intro st h
    exact ih (f st a) (hf st a h)

theorem ginv_step {s s' : Store} (h : GInv s) (hstep : PipelineStep s s') :
    GInv s' := by
  cases hstep with
  | ingest items s =>
    exact ginv_foldl (fun st a hg => ginv_save hg) items s h
  | fetch ext s =>
    exact ginv_foldl (fun st a hg => ginv_fetchStep hg) _ s h
  | process llm ttrans s =>
    exact ginv_foldl (fun st a hg => ginv_process_one hg) _ s h
  | publish t pick emozi send s hpick =>
    unfold run_publisher_iteration
    by_cases hq : 0 < get_sleep_duration t
    · simp only [hq, if_true]
      exact h
    · simp only [hq, if_false]
      cases pick with
      | none => simpa [publisher_cycle] using h
      | some item =>
        cases hd : publish_decision emozi item with
        | skipped => simpa [publisher_cycle, hd] using ginv_mark h
        | sent msg =>
          cases send with
          | ok => simpa [publisher_cycle, hd] using ginv_mark h
          | apiError => simpa [publisher_cycle, hd] using h

theorem reachable_ginv {s : Store} (h : Reachable s) : GInv s := by
  induction h with
  | init => exact ⟨List.nodup_nil, fun r hr => absurd hr (List.not_mem_nil r), fun r hr => absurd hr (List.not_mem_nil r)⟩
  | step _ hstep ih => exact ginv_step ih hstep

theorem advFetch_trans : ∀ a b c, AdvFetch a b → AdvFetch b c → AdvFetch a c := by
  decide

theorem advProc_trans : ∀ a b c, AdvProc a b → AdvProc b c → AdvProc a c := by
  decide

theorem advFetch_stepOk : ∀ a b, AdvFetch a b → stepOk a b := by
  decide

theorem advProc_stepOk : ∀ a b, AdvProc a b → stepOk a b := by
  decide

theorem advPub_stepOk : ∀ a b, AdvPub a b → stepOk a b := by
  decide

theorem mem_fetchStep {ext : String → ExtractResult} {st : Store} {p r' : NewsRow}
    (h : r' ∈ fetchStep ext st p) (hne : r'.title ≠ p.title) : r' ∈ st := by
  have core : ∀ st2 : Store, r' ∈ update_news_status_to_failed st2 p.title → r' ∈ st2 := by
    intro st2 h2
    unfold update_news_status_to_failed at h2
    obtain ⟨r, hrs, hupd⟩ := List.mem_map.mp h2
    by_cases hteq : r.title = p.title
    · exfalso
      apply hne
      rw [← hupd]
      simp [hteq]
    · rw [← hupd]
      simp only [hteq, if_false]
      exact hrs
  by_cases hp : (find_site_adapter p.link).isSome
  · cases hext : ext p.link with
    | raised =>
      simp only [fetchStep, hext, hp, if_true] at h
      exact h
    | returned t =>
      cases t with
      | none =>
        simp only [fetchStep, hext, hp, if_true] at h
        exact core st h
      | some txt =>
        simp only [fetchStep, hext, hp, if_true] at h
        by_cases htxt : txt = ""
        · rw [if_pos htxt] at h
          exact core st h
        · rw [if_neg htxt] at h
          unfold update_news_full_text at h
          obtain ⟨r, hrs, hupd⟩ := List.mem_map.mp h
          by_cases hteq : r.title = p.title
          · exfalso
            apply hne
            rw [← hupd]
            simp [hteq]
          · rw [← hupd]
            simp only [hteq, if_false]
            exact hrs
  · have hp2 : (find_site_adapter p.link).isSome = false := by
      cases hfp : (find_site_adapter p.link).isSome
      · rfl
      · exact absurd hfp hp
    simp only [fetchStep, hp2, Bool.false_eq_true, if_false] at h
    exact h

theorem mem_process_one {llm ttrans : String → Option String} {st : Store}
    {p r' : NewsRow} (h : r' ∈ process_one llm ttrans st p)
    (hne : r'.title ≠ p.title) : r' ∈ st := by
  unfold process_one at h
  by_cases ht : (ttrans p.title).getD p.title = ""
  · rw [if_pos ht] at h
    exact h
  · rw [if_neg ht] at h
    cases hres : process_text_with_yacloud_sdk llm p.full_text with
    | none =>
      rw [hres] at h
      exact h
    | some final =>
      rw [hres] at h
      simp only [] at h
      unfold update_news_processed_text at h
      obtain ⟨r, hrs, hupd⟩ := List.mem_map.mp h
      by_cases hteq : r.title = p.title
      · exfalso
        apply hne
        rw [← hupd]
        simp [hteq]
      · rw [← hupd]
        simp only [hteq, if_false]
        exact hrs

theorem fetchStep_advances {ext : String → ExtractResult} {st : Store} {p : NewsRow}
    (hpend : ∀ r ∈ st, r.title = p.title → r.published = Status.no) :
    Advances AdvFetch st (fetchStep ext st p) := by
  unfold fetchStep
  by_cases hp : (find_site_adapter p.link).isSome
  · rw [if_pos hp]
    have hfail : Advances AdvFetch st (update_news_status_to_failed st p.title) := by
      apply advances_map _ st (fun r _ => update_failed_title p.title r)
      intro r hr
      by_cases hteq : r.title = p.title
      · have hno := hpend r hr hteq
        simp only [hteq, if_true]
        right
        exact ⟨hno, Or.inr rfl⟩
      · simp only [hteq, if_false]
        exact Or.inl rfl
    cases ext p.link with
    | raised => exact advances_refl (fun a => Or.inl rfl) st
    | returned t =>
      cases t with
      | none => exact hfail
      | some txt =>
        show Advances AdvFetch st (if txt = "" then update_news_status_to_failed st p.title
          else update_news_full_text st p.title txt)
        by_cases htxt : txt = ""
        · rw [if_pos htxt]
          exact hfail
        · rw [if_neg htxt]
          apply advances_map _ st (fun r _ => update_full_title p.title txt r)
          intro r hr
          by_cases hteq : r.title = p.title
          · have hno := hpend r hr hteq
            simp only [hteq, if_true]
            right
            exact ⟨hno, Or.inl rfl⟩
          · simp only [hteq, if_false]
            exact Or.inl rfl
  · rw [if_neg hp]
    exact advances_refl (fun a => Or.inl rfl) st

theorem fetch_fold_advances (ext : String → ExtractResult) :
    ∀ (todo : List NewsRow) (st : Store),
      (∀ p ∈ todo, ∀ r ∈ st, r.title = p.title → r.published = Status.no) →
      (todo.map (fun p => p.title)).Nodup →
      Advances AdvFetch st (todo.foldl (fetchStep ext) st) := by
  intro todo
  induction todo with
  | nil =>
    intro st _ _
    exact advances_refl (fun a => Or.inl rfl) st
  | cons p rest ih =>
    intro st hpend hnd
    rw [List.foldl_cons]
    have hcons := List.nodup_cons.mp hnd
    have hadv1 : Advances AdvFetch st (fetchStep ext st p) :=
      fetchStep_advances (fun r hr hteq => hpend p (List.mem_cons_self p rest) r hr hteq)
    have hpend2 : ∀ q ∈ rest, ∀ r' ∈ fetchStep ext st p,
        r'.title = q.title → r'.published = Status.no := by
      intro q hq r' hr' hteq
      have hqp : q.title ≠ p.title := by
        intro hcontra
        exact hcons.1 (List.mem_map.mpr ⟨q, hq, hcontra⟩)
      have hr'ne : r'.title ≠ p.title := by
        rw [hteq]
        exact hqp
      exact hpend q (List.mem_cons_of_mem p hq) r' (mem_fetchStep hr' hr'ne) hteq
    exact advances_trans advFetch_trans hadv1 (ih (fetchStep ext st p) hpend2 hcons.2)

theorem process_one_advances {llm ttrans : String → Option String} {st : Store}
    {p : NewsRow}
    (hpend : ∀ r ∈ st, r.title = p.title → r.published = Status.fetched) :
    Advances AdvProc st (process_one llm ttrans st p) := by
  unfold process_one
  by_cases ht : (ttrans p.title).getD p.title = ""
  · rw [if_pos ht]
    exact advances_refl (fun a => Or.inl rfl) st
  · rw [if_neg ht]
    cases process_text_with_yacloud_sdk llm p.full_text with
    | none => exact advances_refl (fun a => Or.inl rfl) st
    | some final =>
      apply advances_map _ st
        (fun r _ => update_processed_title p.title ((ttrans p.title).getD p.title) final r)
      intro r hr
      by_cases hteq : r.title = p.title
      · have hf := hpend r hr hteq
        simp only [hteq, if_true]
        right
        exact ⟨hf, rfl⟩
      · simp only [hteq, if_false]
        exact Or.inl rfl

theorem process_fold_advances (llm ttrans : String → Option String) :
    ∀ (todo : List NewsRow) (st : Store),
      (∀ p ∈ todo, ∀ r ∈ st, r.title = p.title → r.published = Status.fetched) →
      (todo.map (fun p => p.title)).Nodup →
      Advances AdvProc st (todo.foldl (process_one llm ttrans) st) := by
  intro todo
  induction todo with
  | nil =>
    intro st _ _
    exact advances_refl (fun a => Or.inl rfl) st
  | cons p rest ih =>
    intro st hpend hnd
    rw [List.foldl_cons]
    have hcons := List.nodup_cons.mp hnd
    have hadv1 : Advances AdvProc st (process_one llm ttrans st p) :=
      process_one_advances (fun r hr hteq => hpend p (List.mem_cons_self p rest) r hr hteq)
    have hpend2 : ∀ q ∈ rest, ∀ r' ∈ process_one llm ttrans st p,
        r'.title = q.title → r'.published = Status.fetched := by
      intro q hq r' hr' hteq
      have hqp : q.title ≠ p.title := by
        intro hcontra
        exact hcons.1 (List.mem_map.mpr ⟨q, hq, hcontra⟩)
      have hr'ne : r'.title ≠ p.title := by
        rw [hteq]
        exact hqp
      exact hpend q (List.mem_cons_of_mem p hq) r' (mem_process_one hr' hr'ne) hteq
    exact advances_trans advProc_trans hadv1 (ih (process_one llm ttrans st p) hpend2 hcons.2)

theorem ingest_advances :
    ∀ (items : List NewsItem) (st : Store),
      Advances (fun a b => a = b) st (ingest_pass st items) := by
  intro items
  induction items with
  | nil =>
    intro st
    exact advances_refl (fun a => rfl) st
  | cons it rest ih =>
    intro st
    unfold ingest_pass
    rw [List.foldl_cons]
    have h1 : Advances (fun a b => a = b) st (save_news_to_db st it).1 := by
      unfold save_news_to_db
      by_cases hc : st.any (fun r => decide (r.title = it.title)) = true
      · rw [if_pos hc]
        exact advances_refl (fun a => rfl) st
      · rw [if_neg hc]
        exact advances_append (fun a => rfl) st [freshRow it]
    exact advances_trans (fun a b c h1 h2 => h1.trans h2) h1 (ih (save_news_to_db st it).1)

theorem mark_advances {s : Store} {item : NewsRow} (hnd : TitlesNodup s)
    (hmem : item ∈ s) (hst : item.published = Status.processed) :
    Advances AdvPub s (mark_news_as_published s item.title) := by
  apply advances_map _ s (fun r _ => update_published_title item.title r)
  intro r hr
  by_cases hteq : r.title = item.title
  · have heq : r = item := eq_of_mem_of_title_eq hnd hmem hr hteq
    simp only [hteq, if_true]
    right
    rw [heq]
    exact ⟨hst, rfl⟩
  · simp only [hteq, if_false]
    exact Or.inl rfl

theorem publish_advances {t : Nat} {pick : Option NewsRow} {emozi : Str}
    {send : SendResult} {s : Store} (hnd : TitlesNodup s)
    (hpick : ∀ r, pick = some r → r ∈ s ∧ r.published = Status.processed) :
    Advances AdvPub s (run_publisher_iteration t pick emozi send s).1 := by
  unfold run_publisher_iteration
  by_cases hq : 0 < get_sleep_duration t
  · rw [if_pos hq]
    exact advances_refl (fun a => Or.inl rfl) s
  · rw [if_neg hq]
    cases pick with
    | none => exact advances_refl (fun a => Or.inl rfl) s
    | some item =>
      have hitem := hpick item rfl
      cases hd : publish_decision emozi item with
      | skipped =>
        simp only [publisher_cycle, hd]
        exact mark_advances hnd hitem.1 hitem.2
      | sent msg =>
        cases send with
        | ok =>
          simp only [publisher_cycle, hd]
          exact mark_advances hnd hitem.1 hitem.2
        | apiError =>
          simp only [publisher_cycle, hd]
          exact advances_refl (fun a => Or.inl rfl) s

theorem snapshot_titles_nodup (s : Store) (q : Status) (hnd : TitlesNodup s) :
    ((s.filter (fun r => decide (r.published = q))).map (fun p => p.title)).Nodup :=
  hnd.sublist ((List.filter_sublist s).map (fun p => p.title))

theorem snapshot_pending {s : Store} {q : Status} (hnd : TitlesNodup s) :
    ∀ p ∈ s.filter (fun r => decide (r.published = q)), ∀ r ∈ s,
      r.title = p.title → r.published = q := by
  intro p hp r hr hteq
  have hp2 := List.mem_filter.mp hp
  have hpq : p.published = q := of_decide_eq_true hp2.2
  rw [eq_of_mem_of_title_eq hnd hp2.1 hr hteq]
  exact hpq

/-- C2: every pipeline step on a reachable store moves each row at most one
edge along the lifecycle state machine
`no → fetched → processed → published_to_tg` (side branch
`no → fetch_failed`): rows keep their position and headline, no step moves
a row backwards and no step skips a state. -/
theorem C2_lifecycle_monotonic {s s' : Store} (hs : Reachable s)
    (hstep : PipelineStep s s') : Advances stepOk s s' := by
  have hg := reachable_ginv hs
  cases hstep with
  | ingest items s =>
    exact advances_mono (fun a b h => Or.inl h) (ingest_advances items s)
  | fetch ext s =>
    apply advances_mono advFetch_stepOk
    unfold fetch_full_texts
    exact fetch_fold_advances ext _ s (snapshot_pending hg.1)
      (snapshot_titles_nodup s Status.no hg.1)
  | process llm ttrans s =>
    apply advances_mono advProc_stepOk
    unfold process_texts_with_yacloud_sdk
    exact process_fold_advances llm ttrans _ s (snapshot_pending hg.1)
      (snapshot_titles_nodup s Status.fetched hg.1)
  | publish t pick emozi send s hpick =>
    exact advances_mono advPub_stepOk (publish_advances hg.1 hpick)

theorem C2_lifecycle_monotonic_witness :
    Advances stepOk [] (ingest_pass [] []) :=
  C2_lifecycle_monotonic Reachable.init (PipelineStep.ingest [] [])

/-- C1: if the body-rewrite LLM call returns null, the text processor
leaves the store untouched (no field of the row is persisted and it stays
`fetched`); on success the single `update_news_processed_text` statement
writes `title_ru`, `processed_full_text` and the `processed` status
together; and in every reachable store a `processed` row has both
translated fields non-null. -/
theorem C1_process_atomicity :
    (∀ (llm ttrans : String → Option String) (st : Store) (r : NewsRow),
      process_text_with_yacloud_sdk llm r.full_text = none →
      process_one llm ttrans st r = st) ∧
    (∀ (llm ttrans : String → Option String) (st : Store) (r : NewsRow) (body : String),
      (ttrans r.title).getD r.title ≠ "" →
      process_text_with_yacloud_sdk llm r.full_text = some body →
      process_one llm ttrans st r =
        update_news_processed_text st r.title ((ttrans r.title).getD r.title) body ∧
      ∀ r' ∈ process_one llm ttrans st r, r'.title = r.title →
        r'.title_ru = some ((ttrans r.title).getD r.title) ∧
        r'.processed_full_text = some body ∧
        r'.published = Status.processed) ∧
    (∀ s : Store, Reachable s → ProcInv s) := by
  refine ⟨?_, ?_, ?_⟩
  · intro llm ttrans st r hnone
    unfold process_one
    by_cases ht : (ttrans r.title).getD r.title = ""
    · rw [if_pos ht]
    · rw [if_neg ht, hnone]
  · intro llm ttrans st r body htt hbody
    have heq : process_one llm ttrans st r =
        update_news_processed_text st r.title ((ttrans r.title).getD r.title) body := by
      unfold process_one
      rw [if_neg htt, hbody]
    refine ⟨heq, ?_⟩
    rw [heq]
    intro r' hr' hteq
    unfold update_news_processed_text at hr'
    obtain ⟨r0, hr0, hupd⟩ := List.mem_map.mp hr'
    by_cases hteq0 : r0.title = r.title
    · rw [← hupd]
      simp [hteq0]
    · exfalso
      apply hteq0
      rw [← hteq, ← hupd]
      simp only [hteq0, if_false]
  · intro s hs
    exact (reachable_ginv hs).2.2

theorem C1_process_atomicity_witness :
    process_one (fun _ => none) (fun _ => some "T") []
      { title := "t", link := "l", thumbnail_url := none, source := "s",
        published := Status.fetched, full_text := some "x", title_ru := none,
        processed_full_text := none } = [] ∧ ProcInv [] :=
  ⟨C1_process_atomicity.1 (fun _ => none) (fun _ => some "T") [] _ rfl,
   C1_process_atomicity.2.2 [] Reachable.init⟩

/-- C3: in the fetch pass, a row whose URL matches a registered adapter is
moved to `fetch_failed` when the extraction result is null or empty, and on
a non-empty result the single `update_news_full_text` statement writes the
body and the `fetched` status together; in every reachable store a
`fetched` row has a non-null, non-empty `full_text`. -/
theorem C3_fetch_branch_invariant :
    (∀ (ext : String → ExtractResult) (st : Store) (p : NewsRow),
      (find_site_adapter p.link).isSome = true →
      ext p.link = ExtractResult.returned none →
      fetchStep ext st p = update_news_status_to_failed st p.title) ∧
    (∀ (ext : String → ExtractResult) (st : Store) (p : NewsRow),
      (find_site_adapter p.link).isSome = true →
      ext p.link = ExtractResult.returned (some "") →
      fetchStep ext st p = update_news_status_to_failed st p.title) ∧
    (∀ (ext : String → ExtractResult) (st : Store) (p : NewsRow) (txt : String),
      txt ≠ "" →
      (find_site_adapter p.link).isSome = true →
      ext p.link = ExtractResult.returned (some txt) →
      fetchStep ext st p = update_news_full_text st p.title txt ∧
      ∀ r' ∈ fetchStep ext st p, r'.title = p.title →
        r'.full_text = some txt ∧ r'.published = Status.fetched) ∧
    (∀ s : Store, Reachable s → FetchInv s) := by
  refine ⟨?_, ?_, ?_, ?_⟩
  · intro ext st p hp hext
    unfold fetchStep
    rw [if_pos hp, hext]
  · intro ext st p hp hext
    unfold fetchStep
    rw [if_pos hp, hext]
    simp
  · intro ext st p txt htxt hp hext
    have heq : fetchStep ext st p = update_news_full_text st p.title txt := by
      unfold fetchStep
      rw [if_pos hp, hext]
      show (if txt = "" then update_news_status_to_failed st p.title
        else update_news_full_text st p.title txt) = _
      rw [if_neg htxt]
    refine ⟨heq, ?_⟩
    rw [heq]
    intro r' hr' hteq
    unfold update_news_full_text at hr'
    obtain ⟨r0, hr0, hupd⟩ := List.mem_map.mp hr'
    by_cases hteq0 : r0.title = p.title
    · rw [← hupd]
      simp [hteq0]
    · exfalso
      apply hteq0
      rw [← hteq, ← hupd]
      simp only [hteq0, if_false]
  · intro s hs
    exact (reachable_ginv hs).2.1

/-- C8: inserting the same item twice leaves the store identical to one
insert; a fresh headline inserts exactly one row with status `no` and
returns true; an already-present headline leaves the store unchanged and
returns false. -/
theorem C8_insert_idempotent (st : Store) (item : NewsItem) :
    ((save_news_to_db (save_news_to_db st item).1 item).1 = (save_news_to_db st item).1) ∧
    (¬(∃ r ∈ st, r.title = item.title) →
      save_news_to_db st item = (st ++ [freshRow item], true) ∧
      (freshRow item).published = Status.no) ∧
    ((∃ r ∈ st, r.title = item.title) → save_news_to_db st item = (st, false)) := by
  have hany : ∀ s2 : Store, s2.any (fun r => decide (r.title = item.title)) = true ↔
      ∃ r ∈ s2, r.title = item.title := by
    intro s2
    rw [List.any_eq_true]
    constructor
    · rintro ⟨r, hr, hd⟩
      exact ⟨r, hr, of_decide_eq_true hd⟩
    · rintro ⟨r, hr, hd⟩
      exact ⟨r, hr, decide_eq_true hd⟩
  refine ⟨?_, ?_, ?_⟩
  · by_cases hc : ∃ r ∈ st, r.title = item.title
    · have h1 : save_news_to_db st item = (st, false) := by
        unfold save_news_to_db
        rw [if_pos ((hany st).mpr hc)]
      rw [h1]
      show (save_news_to_db st item).1 = st
      rw [h1]
    · have h1 : save_news_to_db st item = (st ++ [freshRow item], true) := by
        unfold save_news_to_db
        rw [if_neg (fun hx => hc ((hany st).mp hx))]
      rw [h1]
      show (save_news_to_db (st ++ [freshRow item]) item).1 = st ++ [freshRow item]
      have h2 : ∃ r ∈ st ++ [freshRow item], r.title = item.title :=
        ⟨freshRow item, List.mem_append.mpr (Or.inr (List.mem_singleton.mpr rfl)), rfl⟩
      unfold save_news_to_db
      rw [if_pos ((hany _).mpr h2)]
  · intro hc
    constructor
    · unfold save_news_to_db
      rw [if_neg (fun hx => hc ((hany st).mp hx))]
    · rfl
  · intro hc
    unfold save_news_to_db
    rw [if_pos ((hany st).mpr hc)]

theorem C8_insert_idempotent_witness :
    (save_news_to_db []
        { title := "a", link := "l", thumbnail_url := none, source := "s" } =
      ([] ++ [freshRow { title := "a", link := "l", thumbnail_url := none, source := "s" }],
        true) ∧
      (freshRow { title := "a", link := "l", thumbnail_url := none, source := "s" }).published
        = Status.no) ∧
    save_news_to_db
        [freshRow { title := "a", link := "l", thumbnail_url := none, source := "s" }]
        { title := "a", link := "l", thumbnail_url := none, source := "s" } =
      ([freshRow { title := "a", link := "l", thumbnail_url := none, source := "s" }],
        false) :=
  ⟨(C8_insert_idempotent [] _).2.1 (by simp),
   (C8_insert_idempotent [freshRow _] _).2.2
     ⟨freshRow { title := "a", link := "l", thumbnail_url := none, source := "s" },
      by simp, rfl⟩⟩

/-- C9 counterexample: with BOT_TOKEN, CHANNEL_ID and YC_FOLDER_ID present
but YC_API_KEY absent, the startup checks all pass — contradicting the
claim that absence of any of the four values aborts startup. -/
theorem C9_counterexample :
    startup_check { bot_token := some "b"
                    channel_id := some "c"
                    yc_folder_id := some "f"
                    yc_api_key := none } = Except.ok () := rfl

/-- C9 amended: absence (or emptiness) of BOT_TOKEN, CHANNEL_ID or
YC_FOLDER_ID is each alone fatal at startup; YC_API_KEY is read but never
checked, so startup succeeds whenever the other three are present,
whatever YC_API_KEY is. -/
theorem C9_startup_amended (e : Env) :
    (pyTruthy e.yc_folder_id = false → ∃ m, startup_check e = Except.error m) ∧
    (pyTruthy e.bot_token = false → ∃ m, startup_check e = Except.error m) ∧
    (pyTruthy e.channel_id = false → ∃ m, startup_check e = Except.error m) ∧
    (pyTruthy e.yc_folder_id = true → pyTruthy e.bot_token = true →
      pyTruthy e.channel_id = true → startup_check e = Except.ok ()) := by
  refine ⟨?_, ?_, ?_, ?_⟩
  · intro h
    refine ⟨"YC_FOLDER_ID", ?_⟩
    unfold startup_check
    rw [h]
    rfl
  · intro h
    unfold startup_check
    by_cases hf : pyTruthy e.yc_folder_id
    · refine ⟨"BOT_TOKEN or CHANNEL_ID", ?_⟩
      rw [hf, h]
      rfl
    · refine ⟨"YC_FOLDER_ID", ?_⟩
      rw [Bool.eq_false_iff.mpr hf]
      rfl
  · intro h
    unfold startup_check
    by_cases hf : pyTruthy e.yc_folder_id
    · refine ⟨"BOT_TOKEN or CHANNEL_ID", ?_⟩
      rw [hf, h]
      simp
    · refine ⟨"YC_FOLDER_ID", ?_⟩
      rw [Bool.eq_false_iff.mpr hf]
      rfl
  · intro h1 h2 h3
    unfold startup_check
    rw [h1, h2, h3]
    rfl

theorem C9_startup_amended_witness :
    (∃ m, startup_check { bot_token := some "b"
                          channel_id := some "c"
                          yc_folder_id := none
                          yc_api_key := some "k" } = Except.error m) ∧
    (∃ m, startup_check { bot_token := none
                          channel_id := some "c"
                          yc_folder_id := some "f"
                          yc_api_key := some "k" } = Except.error m) ∧
    (∃ m, startup_check { bot_token := some "b"
                          channel_id := none
                          yc_folder_id := some "f"
                          yc_api_key := some "k" } = Except.error m) ∧
    startup_check { bot_token := some "b"
                    channel_id := some "c"
                    yc_folder_id := some "f"
                    yc_api_key := none } = Except.ok () :=
  ⟨(C9_startup_amended _).1 rfl,
   (C9_startup_amended _).2.1 rfl,
   (C9_startup_amended _).2.2.1 rfl,
   (C9_startup_amended _).2.2.2 rfl rfl rfl⟩

/-- C5: `get_sleep_duration` is positive — and equal to the time remaining
until 07:00 — exactly when the local time lies in `[02:00, 07:00)`, and is
0 outside that window; during the window a publisher loop iteration sends
nothing and leaves the store unchanged. -/
theorem C5_quiet_hours (t : Nat) :
    (2 * USEC_PER_HOUR ≤ t ∧ t < 7 * USEC_PER_HOUR →
      get_sleep_duration t = 7 * USEC_PER_HOUR - t ∧ 0 < get_sleep_duration t) ∧
    (¬(2 * USEC_PER_HOUR ≤ t ∧ t < 7 * USEC_PER_HOUR) →
      get_sleep_duration t = 0) ∧
    (2 * USEC_PER_HOUR ≤ t → t < 7 * USEC_PER_HOUR →
      ∀ (pick : Option NewsRow) (emozi : Str) (send : SendResult) (st : Store),
        (run_publisher_iteration t pick emozi send st).2 = none ∧
        (run_publisher_iteration t pick emozi send st).1 = st) := by
  have hval : 2 * USEC_PER_HOUR ≤ t → t < 7 * USEC_PER_HOUR →
      get_sleep_duration t = 7 * USEC_PER_HOUR - t := by
    intro h1 h2
    unfold get_sleep_duration
    rw [if_pos ⟨h1, h2⟩]
    have hw : ¬(7 * USEC_PER_HOUR ≤ t) := by omega
    simp only [hw, if_false]
  refine ⟨?_, ?_, ?_⟩
  · rintro ⟨h1, h2⟩
    have hv := hval h1 h2
    refine ⟨hv, ?_⟩
    rw [hv]
    have : (0 : Nat) < USEC_PER_HOUR := by
      unfold USEC_PER_HOUR
      omega
    omega
  · intro hout
    unfold get_sleep_duration
    rw [if_neg hout]
  · intro h1 h2 pick emozi send st
    have hpos : 0 < get_sleep_duration t := by
      rw [hval h1 h2]
      have : (0 : Nat) < USEC_PER_HOUR := by
        unfold USEC_PER_HOUR
        omega
      omega
    unfold run_publisher_iteration
    rw [if_pos hpos]
    exact ⟨rfl, rfl⟩

theorem C5_quiet_hours_witness :
    (get_sleep_duration (3 * USEC_PER_HOUR) =
      7 * USEC_PER_HOUR - 3 * USEC_PER_HOUR ∧
      0 < get_sleep_duration (3 * USEC_PER_HOUR)) ∧
    get_sleep_duration (8 * USEC_PER_HOUR) = 0 ∧
    (run_publisher_iteration (3 * USEC_PER_HOUR) none [] SendResult.ok []).2 = none :=
  ⟨(C5_quiet_hours (3 * USEC_PER_HOUR)).1 (by constructor <;> (unfold USEC_PER_HOUR; omega)),
   (C5_quiet_hours (8 * USEC_PER_HOUR)).2.1 (by unfold USEC_PER_HOUR; omega),
   ((C5_quiet_hours (3 * USEC_PER_HOUR)).2.2 (by unfold USEC_PER_HOUR; omega)
     (by unfold USEC_PER_HOUR; omega) none [] SendResult.ok []).1⟩

theorem containsSub_nil (l : Str) : containsSub [] l = true := by
  cases l with
  | nil => rfl
  | cons c cs =>
    show (([] : Str).isPrefixOf (c :: cs) || containsSub [] cs) = true
    simp [List.isPrefixOf]

theorem isPrefixOf_self_append (l post : Str) : l.isPrefixOf (l ++ post) = true := by
  induction l with
  | nil => simp [List.isPrefixOf]
  | cons c cs ih =>
    rw [List.cons_append]
    show (c == c && cs.isPrefixOf (cs ++ post)) = true
    rw [ih]
    simp

theorem containsSub_of_decomp {needle hay pre post : Str}
    (h : hay = pre ++ needle ++ post) : containsSub needle hay = true := by
  induction pre generalizing hay with
  | nil =>
    subst h
    rw [List.nil_append]
    cases needle with
    | nil =>
      rw [List.nil_append]
      exact containsSub_nil post
    | cons n ns =>
      rw [List.cons_append]
      show ((n :: ns).isPrefixOf (n :: (ns ++ post)) || containsSub (n :: ns) (ns ++ post)) = true
      have h1 := isPrefixOf_self_append (n :: ns) post
      rw [List.cons_append] at h1
      rw [h1]
      simp
  | cons c cs ih =>
    subst h
    rw [List.cons_append, List.cons_append]
    show (needle.isPrefixOf (c :: (cs ++ needle ++ post)) ||
      containsSub needle (cs ++ needle ++ post)) = true
    rw [ih rfl]
    simp

/-- C6: a selected `processed` row with an empty or missing translated
headline or body, or whose body contains the substring `vpn` in any letter
case (also inside longer words), or whose body contains the LLM refusal
sentinel, is consumed by the publisher: it is marked `published_to_tg` and
no message is sent. -/
theorem C6_presend_filters (emozi : Str) (item : NewsRow) (send : SendResult)
    (st : Store)
    (hfilter :
      pyTruthy item.title_ru = false ∨
      pyTruthy item.processed_full_text = false ∨
      (∃ pre mid post : Str,
        (item.processed_full_text.getD "").data = pre ++ mid ++ post ∧
        mid.map pyLowerChar = VPN_NEEDLE.data) ∨
      (∃ pre post : Str,
        (item.processed_full_text.getD "").data = pre ++ SENTINEL.data ++ post)) :
    publish_decision emozi item = PublishOutcome.skipped ∧
    publisher_cycle (some item) emozi send st =
      (mark_news_as_published st item.title, none) ∧
    (∀ r' ∈ mark_news_as_published st item.title, r'.title = item.title →
      r'.published = Status.published_to_tg) := by
  have hdec : publish_decision emozi item = PublishOutcome.skipped := by
    unfold publish_decision
    by_cases hfirst : (!(pyTruthy item.title_ru) || !(pyTruthy item.processed_full_text)) = true
    · rw [if_pos hfirst]
    · rw [if_neg hfirst]
      rcases hfilter with h | h | h | h
      · exfalso
        apply hfirst
        rw [h]
        rfl
      · exfalso
        apply hfirst
        rw [h]
        simp
      · obtain ⟨pre, mid, post, hsplit, hlow⟩ := h
        have hsplit2 : (item.processed_full_text.getD "").data.map pyLowerChar =
            pre.map pyLowerChar ++ VPN_NEEDLE.data ++ post.map pyLowerChar := by
          rw [hsplit, ← hlow]
          simp [List.map_append]
        have hvpn : containsSub VPN_NEEDLE.data
            ((item.processed_full_text.getD "").data.map pyLowerChar) = true :=
          containsSub_of_decomp hsplit2
        rw [if_pos hvpn]
      · obtain ⟨pre, post, hsplit⟩ := h
        have hsent : containsSub SENTINEL.data
            (item.processed_full_text.getD "").data = true :=
          containsSub_of_decomp hsplit
        by_cases hvpn : containsSub VPN_NEEDLE.data
            ((item.processed_full_text.getD "").data.map pyLowerChar) = true
        · rw [if_pos hvpn]
        · rw [if_neg hvpn, if_pos hsent]
  refine ⟨hdec, ?_, ?_⟩
  · simp only [publisher_cycle, hdec]
  · intro r' hr' hteq
    unfold mark_news_as_published at hr'
    obtain ⟨r0, hr0, hupd⟩ := List.mem_map.mp hr'
    by_cases hteq0 : r0.title = item.title
    · rw [← hupd]
      simp [hteq0]
    · exfalso
      apply hteq0
      rw [← hteq, ← hupd]
      simp only [hteq0, if_false]

theorem C3_fetch_branch_invariant_witness :
    fetchStep (fun _ => ExtractResult.returned none) []
      { title := "t", link := "https://wired.com/a", thumbnail_url := none,
        source := "s", published := Status.no, full_text := none,
        title_ru := none, processed_full_text := none } =
      update_news_status_to_failed [] "t" ∧ FetchInv [] :=
  ⟨C3_fetch_branch_invariant.1 (fun _ => ExtractResult.returned none) [] _
      (by decide) rfl,
   C3_fetch_branch_invariant.2.2.2 [] Reachable.init⟩

theorem C6_presend_filters_witness :
    publish_decision []
      { title := "t", link := "l", thumbnail_url := none,
        source := "s", published := Status.processed, full_text := some "x",
        title_ru := some "T", processed_full_text := some "Use OPENVPN today" } =
      PublishOutcome.skipped ∧
    publisher_cycle
      (some
        { title := "t", link := "l", thumbnail_url := none,
          source := "s", published := Status.processed, full_text := some "x",
          title_ru := some "T", processed_full_text := some "Use OPENVPN today" })
      [] SendResult.ok [] = (mark_news_as_published [] "t", none) := by
  have h := C6_presend_filters []
    { title := "t", link := "l", thumbnail_url := none,
      source := "s", published := Status.processed, full_text := some "x",
      title_ru := some "T", processed_full_text := some "Use OPENVPN today" }
    SendResult.ok []
    (Or.inr (Or.inr (Or.inl ⟨("Use OPEN").data, ("VPN").data, (" today").data,
      by decide, by decide⟩)))
  exact ⟨h.1, h.2.1⟩

/-- C10: the body processor returns the empty string for empty or null
input for every LLM oracle (the oracle is never consulted); a `fetched`
row with empty or null `full_text` is still transitioned to `processed`
with an empty rewritten body by the single atomic update; and the
publisher's empty-body filter then consumes such a row unsent. -/
theorem C10_empty_body_processed :
    (∀ llm : String → Option String,
      process_text_with_yacloud_sdk llm none = some "" ∧
      process_text_with_yacloud_sdk llm (some "") = some "") ∧
    (∀ (llm ttrans : String → Option String) (st : Store) (r : NewsRow),
      (r.full_text = none ∨ r.full_text = some "") →
      (ttrans r.title).getD r.title ≠ "" →
      process_one llm ttrans st r =
        update_news_processed_text st r.title ((ttrans r.title).getD r.title) "" ∧
      ∀ r' ∈ process_one llm ttrans st r, r'.title = r.title →
        r'.processed_full_text = some "" ∧ r'.published = Status.processed) ∧
    (∀ (emozi : Str) (item : NewsRow), item.processed_full_text = some "" →
      publish_decision emozi item = PublishOutcome.skipped) := by
  refine ⟨?_, ?_, ?_⟩
  · intro llm
    exact ⟨rfl, rfl⟩
  · intro llm ttrans st r hfe htt
    have hpt : process_text_with_yacloud_sdk llm r.full_text = some "" := by
      rcases hfe with h | h <;> rw [h] <;> rfl
    have heq : process_one llm ttrans st r =
        update_news_processed_text st r.title ((ttrans r.title).getD r.title) "" := by
      unfold process_one
      rw [if_neg htt, hpt]
    refine ⟨heq, ?_⟩
    rw [heq]
    intro r' hr' hteq
    unfold update_news_processed_text at hr'
    obtain ⟨r0, hr0, hupd⟩ := List.mem_map.mp hr'
    by_cases hteq0 : r0.title = r.title
    · rw [← hupd]
      simp [hteq0]
    · exfalso
      apply hteq0
      rw [← hteq, ← hupd]
      simp only [hteq0, if_false]
  · intro emozi item hbody
    have hcond : (!(pyTruthy item.title_ru) || !(pyTruthy item.processed_full_text)) = true := by
      rw [hbody]
      have h2 : pyTruthy (some "") = false := by decide
      rw [h2]
      simp
    unfold publish_decision
    rw [if_pos hcond]

theorem C10_empty_body_processed_witness :
    process_text_with_yacloud_sdk (fun _ => some "B") none = some "" ∧
    process_one (fun _ => some "B") (fun _ => some "T") []
      { title := "t", link := "l", thumbnail_url := none, source := "s",
        published := Status.fetched, full_text := none, title_ru := none,
        processed_full_text := none } =
      update_news_processed_text [] "t" "T" "" ∧
    publish_decision []
      { title := "t", link := "l", thumbnail_url := none,
        source := "s", published := Status.processed, full_text := none,
        title_ru := some "T", processed_full_text := some "" } =
      PublishOutcome.skipped :=
  ⟨(C10_empty_body_processed.1 (fun _ => some "B")).1,
   (C10_empty_body_processed.2.1 (fun _ => some "B") (fun _ => some "T") [] _
      (Or.inl rfl) (by decide)).1,
   C10_empty_body_processed.2.2 [] _ rfl⟩

/-- C4 counterexample: on a network error every registered extractor raises
(a `TypeError` from subscripting the `None` article) instead of returning
an empty or null result as the claim states. -/
theorem C4_counterexample :
    fetch_text_wired (fun h => h) HttpResult.netError =
      Except.error PyError.typeError ∧
    fetch_text_cnet (fun h => h) HttpResult.netError =
      Except.error PyError.typeError ∧
    fetch_text_computerweekly (fun h => h) HttpResult.netError =
      Except.error PyError.typeError ∧
    fetch_text_engadget (fun h => h) HttpResult.netError =
      Except.error PyError.typeError :=
  ⟨rfl, rfl, rfl, rfl⟩

/-- C4 amended: on a network error each per-site parse function returns
None, and each `fetch_text_*` wrapper then raises `TypeError` by
subscripting it — the exception propagates to the fetch loop, whose
`except` clause skips the row and leaves it (and the store) untouched in
state `no`. -/
theorem C4_extractors_raise_amended (extract_content : String → String)
    (ext : String → ExtractResult) (st : Store) (p : NewsRow) :
    parse_wired_article extract_content HttpResult.netError = none ∧
    fetch_text_wired extract_content HttpResult.netError =
      Except.error PyError.typeError ∧
    fetch_text_cnet extract_content HttpResult.netError =
      Except.error PyError.typeError ∧
    fetch_text_computerweekly extract_content HttpResult.netError =
      Except.error PyError.typeError ∧
    fetch_text_engadget extract_content HttpResult.netError =
      Except.error PyError.typeError ∧
    (ext p.link = ExtractResult.raised → fetchStep ext st p = st) := by
  refine ⟨rfl, rfl, rfl, rfl, rfl, ?_⟩
  intro h
  unfold fetchStep
  by_cases hp : (find_site_adapter p.link).isSome
  · rw [if_pos hp, h]
  · rw [if_neg hp]

theorem C4_extractors_raise_amended_witness :
    fetch_text_wired (fun h => h) HttpResult.netError =
      Except.error PyError.typeError ∧
    fetchStep (fun _ => ExtractResult.raised) []
      { title := "t", link := "https://cnet.com/a", thumbnail_url := none,
        source := "s", published := Status.no, full_text := none,
        title_ru := none, processed_full_text := none } = [] :=
  ⟨(C4_extractors_raise_amended (fun h => h) (fun _ => ExtractResult.raised) []
      { title := "t", link := "https://cnet.com/a", thumbnail_url := none,
        source := "s", published := Status.no, full_text := none,
        title_ru := none, processed_full_text := none }).2.1,
   (C4_extractors_raise_amended (fun h => h) (fun _ => ExtractResult.raised) []
      { title := "t", link := "https://cnet.com/a", thumbnail_url := none,
        source := "s", published := Status.no, full_text := none,
        title_ru := none, processed_full_text := none }).2.2.2.2.2 rfl⟩

theorem seg_a_len : SEG_A.length = 3 := by decide

theorem seg_b2_len : SEG_B2.length = 6 := by decide

theorem seg_dots_len : DOTS.length = 3 := by decide

theorem seg_d_len : SEG_D.length = 11 := by decide

theorem seg_b3_len : SEG_B3.length = 13 := by decide

theorem seg_c_len : SEG_C.length = 21 := by decide

theorem seg_c_full_len : SEG_C_FULL.length = 43 := by decide

theorem seg_colon_len : SEG_COLON.length = 2 := by decide

theorem trunc_template_len (title_ru link : Str) :
    (TRUNC_TEMPLATE title_ru link).length = title_ru.length + link.length + 46 := by
  unfold TRUNC_TEMPLATE
  simp only [List.length_append, seg_a_len, seg_b2_len, seg_dots_len,
    seg_b3_len, seg_c_len]
  omega

theorem compose_message_len (emozi source title_ru body link : Str) :
    (compose_message emozi source title_ru body link).length =
      emozi.length + source.length + title_ru.length + body.length +
        link.length + 67 := by
  unfold compose_message
  simp only [List.length_append, seg_a_len, seg_colon_len, seg_b2_len,
    seg_b3_len, seg_c_full_len]
  omega

/-- C7 amended: a composed message of at most 4,000 characters (exactly
4,000 included) is sent unmodified; a longer one is rebuilt from the
headline-plus-link template with the body cut to the remaining space and an
ASCII `...` (not `…`) appended whenever more than 100 characters remain,
giving a message of at most 3,997 characters; when at most 100 characters
remain, a minimal headline-plus-link message is sent instead, and that
minimal form is not length-checked, so the sent message can still exceed
4,000 characters. -/
theorem C7_length_enforcement_amended (title_ru body link msg : Str) :
    (msg.length ≤ 4000 → truncate_message title_ru body link msg = msg) ∧
    (4000 < msg.length →
      100 < (4000 : Int) - ((TRUNC_TEMPLATE title_ru link).length : Int) →
      truncate_message title_ru body link msg =
        SEG_A ++ title_ru ++ SEG_B2 ++
          (body.take ((4000 : Int) - ((TRUNC_TEMPLATE title_ru link).length : Int)
            - 3).toNat ++ DOTS) ++ SEG_B3 ++ link ++ SEG_C ∧
      (truncate_message title_ru body link msg).length ≤ 3997) ∧
    (4000 < msg.length →
      (4000 : Int) - ((TRUNC_TEMPLATE title_ru link).length : Int) ≤ 100 →
      truncate_message title_ru body link msg =
        SEG_A ++ title_ru ++ SEG_B2 ++ SEG_D ++ link ++ SEG_C) := by
  refine ⟨?_, ?_, ?_⟩
  · intro hle
    unfold truncate_message
    rw [if_neg (by unfold MAX_TELEGRAM_MESSAGE_LENGTH; omega)]
  · intro hgt havail
    have heq : truncate_message title_ru body link msg =
        SEG_A ++ title_ru ++ SEG_B2 ++
          (body.take ((4000 : Int) - ((TRUNC_TEMPLATE title_ru link).length : Int)
            - 3).toNat ++ DOTS) ++ SEG_B3 ++ link ++ SEG_C := by
      unfold truncate_message
      rw [if_pos (by unfold MAX_TELEGRAM_MESSAGE_LENGTH; omega)]
      rw [if_pos (by unfold MAX_TELEGRAM_MESSAGE_LENGTH; exact havail)]
      rfl
    refine ⟨heq, ?_⟩
    rw [heq]
    rw [trunc_template_len] at havail ⊢
    simp only [List.length_append, List.length_take, seg_a_len, seg_b2_len,
      seg_dots_len, seg_b3_len, seg_c_len]
    omega
  · intro hgt havail
    unfold truncate_message
    rw [if_pos (by unfold MAX_TELEGRAM_MESSAGE_LENGTH; omega)]
    rw [if_neg (by unfold MAX_TELEGRAM_MESSAGE_LENGTH; omega)]

/-- C7 counterexample: with a 4,000-character translated headline the
composed message has 4,071 characters, the remaining space is negative, and
the code sends the minimal headline-plus-link form of 4,042 characters —
the sent message exceeds 4,000 characters, contradicting the claim. -/
theorem C7_counterexample :
    4000 < (compose_message ("E").data ("S").data (List.replicate 4000 'a')
      ("B").data ("L").data).length ∧
    4000 < (truncate_message (List.replicate 4000 'a') ("B").data ("L").data
      (compose_message ("E").data ("S").data (List.replicate 4000 'a')
        ("B").data ("L").data)).length := by
  have hE : (("E").data).length = 1 := by decide
  have hS : (("S").data).length = 1 := by decide
  have hB : (("B").data).length = 1 := by decide
  have hL : (("L").data).length = 1 := by decide
  have h1 : (compose_message ("E").data ("S").data (List.replicate 4000 'a')
      ("B").data ("L").data).length = 4071 := by
    rw [compose_message_len, hE, hS, hB, hL, List.length_replicate]
  have hT : (TRUNC_TEMPLATE (List.replicate 4000 'a') ("L").data).length = 4047 := by
    rw [trunc_template_len, List.length_replicate, hL]
  refine ⟨by omega, ?_⟩
  have heq : truncate_message (List.replicate 4000 'a') ("B").data ("L").data
      (compose_message ("E").data ("S").data (List.replicate 4000 'a')
        ("B").data ("L").data) =
      SEG_A ++ List.replicate 4000 'a' ++ SEG_B2 ++ SEG_D ++ ("L").data ++ SEG_C := by
    unfold truncate_message
    rw [if_pos (by unfold MAX_TELEGRAM_MESSAGE_LENGTH; omega)]
    rw [if_neg (by unfold MAX_TELEGRAM_MESSAGE_LENGTH; rw [hT]; omega)]
  rw [heq]
  simp only [List.length_append, seg_a_len, seg_b2_len, seg_d_len, seg_c_len,
    List.length_replicate, hL]
  omega

theorem C7_length_enforcement_amended_witness :
    truncate_message ("T").data ("B").data ("L").data ("m").data = ("m").data ∧
    (truncate_message ("T").data (List.replicate 4000 'b') ("L").data
      (compose_message ("E").data ("S").data ("T").data (List.replicate 4000 'b')
        ("L").data)).length ≤ 3997 ∧
    truncate_message (List.replicate 4000 'a') ("B").data ("L").data
      (compose_message ("E").data ("S").data (List.replicate 4000 'a') ("B").data
        ("L").data) =
      SEG_A ++ List.replicate 4000 'a' ++ SEG_B2 ++ SEG_D ++ ("L").data ++ SEG_C := by
  have hE : (("E").data).length = 1 := by decide
  have hS : (("S").data).length = 1 := by decide
  have hB : (("B").data).length = 1 := by decide
  have hL : (("L").data).length = 1 := by decide
  have hT1 : (("T").data).length = 1 := by decide
  refine ⟨?_, ?_, ?_⟩
  · exact (C7_length_enforcement_amended ("T").data ("B").data ("L").data
      ("m").data).1 (by decide)
  · exact ((C7_length_enforcement_amended ("T").data (List.replicate 4000 'b')
      ("L").data _).2.1
      (by rw [compose_message_len, hE, hS, hT1, hL, List.length_replicate]; omega)
      (by rw [trunc_template_len, hT1, hL]; omega)).2
  · exact (C7_length_enforcement_amended (List.replicate 4000 'a') ("B").data
      ("L").data _).2.2
      (by rw [compose_message_len, hE, hS, hB, hL, List.length_replicate]; omega)
      (by rw [trunc_template_len, List.length_replicate, hL]; omega)
